import Mathlib

/-!
Shallow embedding of the Kindle AI Chat streaming relay and conversation
store (src/src/lib.rs), together with theorems settling the specification
claims about it.

Modelling conventions:
* `chrono::Utc::now().timestamp()` is passed as an explicit `now : Int`
  parameter wherever the source calls it.
* The on-disk `data/` directory is a map from session id to file content.
  serde_json round-trips the plain record types involved (strings, vectors,
  64-bit integers) exactly, so file content is modelled at the parsed level:
  either a well-formed `ConversationHistory` or unparseable bytes
  (`DiskFile.corrupt`).
* Asynchronous executions are modelled as explicit traces; the shared abort
  flag is a single signal time on a global clock, each cooperative check
  reads the flag at its own time (`aborted_at`), which makes the flag
  automatically sticky/monotone.
-/

namespace Aichat

/-- Individual message in a conversation (struct `ConversationMessage`). -/
structure ConversationMessage where
  role : String
  content : String
  timestamp : Int
deriving Repr, DecidableEq

/-- Complete conversation history for a session (struct `ConversationHistory`). -/
structure ConversationHistory where
  session_id : String
  messages : List ConversationMessage
  created_at : Int
  updated_at : Int
deriving Repr, DecidableEq

/-- `ConversationHistory::new`: fresh empty history; both timestamps are the
single `now` the source reads from the clock. -/
def ConversationHistory.new (session_id : String) (now : Int) : ConversationHistory :=
  { session_id := session_id, messages := [], created_at := now, updated_at := now }

/-- `ConversationHistory::add_message`: push one message and bump
`updated_at` to the message's timestamp. -/
def ConversationHistory.add_message (h : ConversationHistory) (role content : String)
    (timestamp : Int) : ConversationHistory :=
  { h with
      messages := h.messages ++ [{ role := role, content := content, timestamp := timestamp }],
      updated_at := timestamp }

/-- Content of one persisted session file: a record that parses back, or
corrupt bytes (serde_json parse failure). -/
inductive DiskFile where
  | valid (h : ConversationHistory)
  | corrupt
deriving Repr, DecidableEq

/-- The `data/` directory: one optional file per session id. -/
def FileSystem : Type := String → Option DiskFile

/-- Errors surfaced by `load_from_file` (`Box<dyn Error>` in the source,
narrowed to the two failure sources of the function body). -/
inductive LoadError where
  | ioError
  | parseError
deriving Repr, DecidableEq

/-- `ConversationHistory::save_to_file`: serialize and overwrite the file
keyed by `self.session_id`. (Directory creation and write errors are I/O
effects outside the store's state; a successful save is modelled.) -/
def save_to_file (h : ConversationHistory) (fs : FileSystem) : FileSystem :=
  fun sid => if sid = h.session_id then some (DiskFile.valid h) else fs sid

/-- `ConversationHistory::load_from_file`: missing file yields a fresh empty
history (not an error); an existing file that fails to parse yields an
error; an existing valid file is returned with its `session_id` overwritten
by the requested id (the "safety check" in the source). -/
def load_from_file (session_id : String) (fs : FileSystem) (now : Int) :
    Except LoadError ConversationHistory :=
  match fs session_id with
  | none => Except.ok (ConversationHistory.new session_id now)
  | some DiskFile.corrupt => Except.error LoadError.parseError
  | some (DiskFile.valid history) => Except.ok { history with session_id := session_id }

/-- Role label used by `to_conversation_text` (`match msg.role.as_str()`). -/
def role_label (role : String) : String :=
  match role with
  | "user" => "Human"
  | "assistant" => "Assistant"
  | _ => role

/-- `ConversationHistory::to_conversation_text`: the indexed loop breaks at
`i == len - 1`, so it labels exactly the first `len - 1` messages; the last
message's raw content is appended when its role is `"user"`; parts are
joined with a blank line. -/
def to_conversation_text (h : ConversationHistory) : String :=
  if h.messages.isEmpty then ""
  else
    let context_parts := (h.messages.take (h.messages.length - 1)).map
      (fun msg => role_label msg.role ++ ": " ++ msg.content)
    let conversation_parts :=
      match h.messages.getLast? with
      | some last_msg =>
          if last_msg.role = "user" then context_parts ++ [last_msg.content] else context_parts
      | none => context_parts
    String.intercalate "\n\n" conversation_parts

/-- Rendering as the specification words it (for the refinement in C4):
join all messages except the final one as labelled pairs separated by a
blank line, then append the final message's raw content unlabelled iff it
is a User message; an empty history renders to the empty string. -/
def toPromptText_spec (h : ConversationHistory) : String :=
  let labelled := h.messages.dropLast.map (fun m => role_label m.role ++ ": " ++ m.content)
  let parts :=
    match h.messages.getLast? with
    | some last => if last.role = "user" then labelled ++ [last.content] else labelled
    | none => labelled
  String.intercalate "\n\n" parts

/-- Concrete history used by the specification's rendering example. -/
def example_history : ConversationHistory :=
  { session_id := "s",
    messages :=
      [ { role := "user", content := "Hi", timestamp := 1 },
        { role := "assistant", content := "Hello", timestamp := 2 },
        { role := "user", content := "How are you?", timestamp := 3 } ],
    created_at := 1,
    updated_at := 3 }

/-- C4: `to_conversation_text` agrees with the spec's rendering rule on every
history (labelled all-but-last joined by blank lines, raw final content iff
the final message is a user message), the empty history renders to the empty
string, and the spec's three-message example renders exactly as stated. -/
theorem c4_rendering :
    (∀ h : ConversationHistory, to_conversation_text h = toPromptText_spec h)
    ∧ to_conversation_text { session_id := "s", messages := [], created_at := 0, updated_at := 0 }
        = ""
    ∧ to_conversation_text example_history = "Human: Hi\n\nAssistant: Hello\n\nHow are you?" := by
  refine ⟨?_, rfl, by decide⟩
  intro h
  unfold to_conversation_text toPromptText_spec
  cases hm : h.messages with
  | nil => simp [hm]; rfl
  | cons a l =>
      simp only [hm, List.isEmpty_cons, if_neg]
      rw [List.dropLast_eq_take]
      simp

/-- C5: persisting any history and loading it back under its own session id
succeeds and returns an identical history (same id, same message sequence,
same created/updated timestamps). -/
theorem c5_round_trip (h : ConversationHistory) (fs : FileSystem) (now : Int) :
    load_from_file h.session_id (save_to_file h fs) now = Except.ok h := by
  simp [load_from_file, save_to_file]

/-- C6: loading a session id with no persisted file is not an error: it
returns a fresh empty history carrying the requested id with equal
created/updated timestamps; loading an existing file that fails to parse
returns an error (`parseError`), distinct from the not-found case. -/
theorem c6_missing_and_corrupt (sid : String) (fs : FileSystem) (now : Int) :
    (fs sid = none →
      load_from_file sid fs now = Except.ok (ConversationHistory.new sid now)
      ∧ (ConversationHistory.new sid now).session_id = sid
      ∧ (ConversationHistory.new sid now).messages = []
      ∧ (ConversationHistory.new sid now).created_at = (ConversationHistory.new sid now).updated_at)
    ∧ (fs sid = some DiskFile.corrupt →
      load_from_file sid fs now = Except.error LoadError.parseError) := by
  constructor
  · intro hmiss
    refine ⟨?_, rfl, rfl, rfl⟩
    simp [load_from_file, hmiss]
  · intro hcor
    simp [load_from_file, hcor]

/-- Concrete two-file disk used to witness C6: no file under `"a"`, corrupt
bytes under `"bad"`. -/
def fs_c6 : FileSystem :=
  fun sid => if sid = "bad" then some DiskFile.corrupt else none

/-- Witness for C6 at a concrete disk: the missing id `"a"` loads as a fresh
history and the corrupt id `"bad"` loads as a parse error. -/
theorem c6_missing_and_corrupt_witness :
    load_from_file "a" fs_c6 7 = Except.ok (ConversationHistory.new "a" 7)
    ∧ load_from_file "bad" fs_c6 7 = Except.error LoadError.parseError :=
  ⟨((c6_missing_and_corrupt "a" fs_c6 7).1 rfl).1,
   (c6_missing_and_corrupt "bad" fs_c6 7).2 rfl⟩

/-- Disk whose stored record carries a session id (`"zzz"`) different from
the key (`"a"`) it is filed under; used to witness C10. -/
def fs_mismatched : FileSystem :=
  fun sid =>
    if sid = "a" then
      some (DiskFile.valid
        { session_id := "zzz",
          messages := [{ role := "user", content := "Hi", timestamp := 1 }],
          created_at := 1, updated_at := 1 })
    else none

/-- C10: every successful load returns a history whose `session_id` equals
the requested key, even when the record on disk stores a different id (the
source overwrites `history.session_id` after parsing). -/
theorem c10_session_id_matches_key (sid : String) (fs : FileSystem) (now : Int)
    (h : ConversationHistory) (hload : load_from_file sid fs now = Except.ok h) :
    h.session_id = sid := by
  unfold load_from_file at hload
  cases hfs : fs sid with
  | none =>
      rw [hfs] at hload
      cases hload
      rfl
  | some file =>
      cases file with
      | corrupt => rw [hfs] at hload; cases hload
      | valid stored =>
          rw [hfs] at hload
          cases hload
          rfl

/-- Witness for C10 at a concrete disk storing the mismatched id `"zzz"`
under key `"a"`: the loaded history carries `"a"`. -/
theorem c10_session_id_matches_key_witness :
    load_from_file "a" fs_mismatched 7
      = Except.ok
        { session_id := "a",
          messages := [{ role := "user", content := "Hi", timestamp := 1 }],
          created_at := 1, updated_at := 1 }
    ∧ ({ session_id := "a",
          messages := [{ role := "user", content := "Hi", timestamp := 1 }],
          created_at := 1, updated_at := 1 } : ConversationHistory).session_id = "a" :=
  ⟨rfl,
   c10_session_id_matches_key "a" fs_mismatched 7 _ rfl⟩

/-! Session Identity: `get_or_create_session_id` and the parts of the `uuid`
crate it uses. A UUID value is its sequence of 32 hexadecimal digit values;
`Uuid.parse_str` accepts the crate's input formats (simple, hyphenated,
braced, urn, hex digits in either case) and `Uuid.to_string` renders the
canonical lowercase hyphenated form. -/

/-- Value of one hexadecimal digit character, case-insensitive. -/
def hex_val (c : Char) : Option Nat :=
  if 48 ≤ c.toNat ∧ c.toNat ≤ 57 then some (c.toNat - 48)
  else if 97 ≤ c.toNat ∧ c.toNat ≤ 102 then some (c.toNat - 87)
  else if 65 ≤ c.toNat ∧ c.toNat ≤ 70 then some (c.toNat - 55)
  else none

/-- Values of a run of hexadecimal digit characters; fails on any non-digit. -/
def hex_vals (cs : List Char) : Option (List Nat) :=
  cs.mapM hex_val

/-- A parsed UUID: its 32 hexadecimal digit values. -/
abbrev Uuid : Type := List Nat

/-- Hyphenated UUID text: 8-4-4-4-12 hex digits with `-` at positions
8, 13, 18 and 23. -/
def parse_hyphenated (cs : List Char) : Option Uuid :=
  if cs.length = 36 ∧ cs.get? 8 = some (Char.ofNat 45) ∧ cs.get? 13 = some (Char.ofNat 45)
      ∧ cs.get? 18 = some (Char.ofNat 45) ∧ cs.get? 23 = some (Char.ofNat 45) then
    hex_vals (cs.take 8 ++ (cs.drop 9).take 4 ++ (cs.drop 14).take 4
      ++ (cs.drop 19).take 4 ++ cs.drop 24)
  else none

/-- `Uuid::parse_str`: accepts the simple (32 hex digits), hyphenated,
braced and urn formats, upper or lower case. -/
def Uuid.parse_str (s : String) : Option Uuid :=
  let cs := s.data
  if cs.length = 32 then hex_vals cs
  else if cs.length = 36 then parse_hyphenated cs
  else if cs.length = 38 ∧ cs.head? = some (Char.ofNat 123)
      ∧ cs.getLast? = some (Char.ofNat 125) then
    parse_hyphenated (cs.drop 1).dropLast
  else if cs.length = 45 ∧ cs.take 9 = "urn:uuid:".data then
    parse_hyphenated (cs.drop 9)
  else none

/-- Lowercase hexadecimal digit character for a value below 16. -/
def nibble_char (n : Nat) : Char :=
  if n < 10 then Char.ofNat (48 + n) else Char.ofNat (87 + n)

/-- `Uuid::to_string` (`Display`): canonical lowercase hyphenated rendering. -/
def Uuid.to_string (u : Uuid) : String :=
  let cs := u.map nibble_char
  String.mk (cs.take 8) ++ "-" ++ String.mk ((cs.drop 8).take 4) ++ "-"
    ++ String.mk ((cs.drop 12).take 4) ++ "-" ++ String.mk ((cs.drop 16).take 4) ++ "-"
    ++ String.mk (cs.drop 20)

/-- `get_or_create_session_id`: the incoming `session_id` cookie value (if
any) and the freshly generated `Uuid::new_v4().to_string()` are explicit
inputs; a cookie that parses is returned via `uuid.to_string()`, otherwise
the fresh identifier is returned (and attached as a cookie, an effect on the
response not modelled here). -/
def get_or_create_session_id (cookie : Option String) (fresh_session_id : String) : String :=
  match cookie with
  | some value =>
      match Uuid.parse_str value with
      | some uuid => Uuid.to_string uuid
      | none => fresh_session_id
  | none => fresh_session_id

/-- C2 counterexample: the uppercase rendering of a UUID is a valid token
(`Uuid::parse_str` accepts it), yet `get_or_create_session_id` returns the
lowercase canonical form, which differs from the incoming cookie value —
so the returned string does not always equal the incoming cookie value. -/
theorem c2_counterexample :
    (Uuid.parse_str "550E8400-E29B-41D4-A716-446655440000").isSome = true
    ∧ get_or_create_session_id (some "550E8400-E29B-41D4-A716-446655440000") "fresh"
        = "550e8400-e29b-41d4-a716-446655440000"
    ∧ "550e8400-e29b-41d4-a716-446655440000" ≠ "550E8400-E29B-41D4-A716-446655440000" := by
  refine ⟨rfl, rfl, by decide⟩

/-- C2 amended: for a cookie that parses as a UUID, the function returns the
canonical lowercase hyphenated rendering of the parsed value — equal to the
incoming cookie value whenever that value is already canonically rendered;
for a missing or malformed cookie it returns the freshly generated
identifier; it never fails (it is a total function). -/
theorem c2_session_id_resolution (value fresh_session_id : String) :
    (∀ u : Uuid, Uuid.parse_str value = some u →
      get_or_create_session_id (some value) fresh_session_id = Uuid.to_string u
      ∧ (value = Uuid.to_string u →
          get_or_create_session_id (some value) fresh_session_id = value))
    ∧ (Uuid.parse_str value = none →
        get_or_create_session_id (some value) fresh_session_id = fresh_session_id)
    ∧ get_or_create_session_id none fresh_session_id = fresh_session_id := by
  refine ⟨?_, ?_, rfl⟩
  · intro u hu
    refine ⟨?_, ?_⟩
    · simp [get_or_create_session_id, hu]
    · intro hv
      simp [get_or_create_session_id, hu, ← hv]
  · intro hn
    simp [get_or_create_session_id, hn]

/-- Digit values of the canonical example UUID
`550e8400-e29b-41d4-a716-446655440000`. -/
def example_uuid : Uuid :=
  [5, 5, 0, 14, 8, 4, 0, 0, 14, 2, 9, 11, 4, 1, 13, 4,
   10, 7, 1, 6, 4, 4, 6, 6, 5, 5, 4, 4, 0, 0, 0, 0]

/-- Witness for C2 at concrete inputs: a canonical cookie value comes back
unchanged, and a malformed one yields the fresh identifier. -/
theorem c2_session_id_resolution_witness :
    get_or_create_session_id (some "550e8400-e29b-41d4-a716-446655440000") "f"
      = "550e8400-e29b-41d4-a716-446655440000"
    ∧ get_or_create_session_id (some "not-a-uuid") "f" = "f" :=
  ⟨((c2_session_id_resolution "550e8400-e29b-41d4-a716-446655440000" "f").1
      example_uuid (by decide)).2 (by decide),
   (c2_session_id_resolution "not-a-uuid" "f").2.1 (by decide)⟩

/-! Flush Scheduler: `process_sse_events`. Its `tokio::select!` loop reacts
to three kinds of occurrences — an `SseEvent::Text` delta arriving, a flush
timer tick arriving, and `SseEvent::Done` — so one scheduler execution is a
sequence of such occurrences. A delta is appended to both the full-text
accumulator and the buffer; a tick with a non-empty buffer sends the buffer
as one chunk and clears it; `Done` flushes any non-empty remainder and stops
processing. (Chunk sends succeed here: the claim concerns streams whose
receiver stays connected; timer start bookkeeping only governs when ticks
can occur and is left to the trace.) -/

/-- One occurrence consumed by the `process_sse_events` select loop. -/
inductive SchedEvent where
  | delta (s : String)
  | tick
  | done
deriving Repr, DecidableEq

/-- Scheduler state: the pending buffer, the running full-text accumulator,
and the chunks sent so far in order. -/
structure SchedState where
  buffer : String
  full_text : String
  emitted : List String
deriving Repr, DecidableEq

/-- Initial scheduler state. -/
def sched_init : SchedState :=
  { buffer := "", full_text := "", emitted := [] }

/-- One iteration of the select loop. -/
def sched_step (st : SchedState) : SchedEvent → SchedState
  | SchedEvent.delta s =>
      { st with full_text := st.full_text ++ s, buffer := st.buffer ++ s }
  | SchedEvent.tick =>
      if st.buffer = "" then st
      else { st with emitted := st.emitted ++ [st.buffer], buffer := "" }
  | SchedEvent.done =>
      if st.buffer = "" then st
      else { st with emitted := st.emitted ++ [st.buffer], buffer := "" }

/-- Run of the select loop over a sequence of occurrences; `done` breaks the
loop, and an exhausted sequence models the delta channel closing. -/
def sched_run (st : SchedState) : List SchedEvent → SchedState
  | [] => st
  | SchedEvent.delta s :: rest => sched_run (sched_step st (SchedEvent.delta s)) rest
  | SchedEvent.tick :: rest => sched_run (sched_step st SchedEvent.tick) rest
  | SchedEvent.done :: _ => sched_step st SchedEvent.done

/-- Concatenation of a list of strings in order. -/
def concat_all : List String → String
  | [] => ""
  | s :: rest => s ++ concat_all rest

/-- Concatenation, in arrival order, of the deltas the loop accepts before
it stops (`done` breaks the loop, so later deltas are never consumed). -/
def delta_concat : List SchedEvent → String
  | [] => ""
  | SchedEvent.delta s :: rest => s ++ delta_concat rest
  | SchedEvent.tick :: rest => delta_concat rest
  | SchedEvent.done :: _ => ""

theorem concat_all_append (l1 l2 : List String) :
    concat_all (l1 ++ l2) = concat_all l1 ++ concat_all l2 := by
  induction l1 with
  | nil => simp [concat_all]
  | cons s rest ih => simp [concat_all, ih, String.append_assoc]

/-- Main scheduler run lemma: from any starting state, the full-text
accumulator grows by exactly the accepted deltas, emitted-so-far plus the
pending buffer track the full text, and a run containing `done` ends with
an empty buffer. -/
theorem sched_run_spec (evs : List SchedEvent) (st : SchedState) :
    (sched_run st evs).full_text = st.full_text ++ delta_concat evs
    ∧ concat_all (sched_run st evs).emitted ++ (sched_run st evs).buffer
        = concat_all st.emitted ++ st.buffer ++ delta_concat evs
    ∧ (SchedEvent.done ∈ evs → (sched_run st evs).buffer = "") := by
  induction evs generalizing st with
  | nil => simp [sched_run, delta_concat]
  | cons e rest ih =>
      cases e with
      | delta s =>
          have h := ih { st with full_text := st.full_text ++ s, buffer := st.buffer ++ s }
          refine ⟨?_, ?_, ?_⟩
          · rw [sched_run, sched_step, h.1, delta_concat, String.append_assoc]
          · rw [sched_run, sched_step, h.2.1]
            simp [delta_concat, String.append_assoc]
          · intro hd
            have hd' : SchedEvent.done ∈ rest := by
              cases hd with
              | tail _ hmem => exact hmem
            exact (ih _).2.2 hd'
      | tick =>
          by_cases hb : st.buffer = ""
          · have h := ih st
            refine ⟨?_, ?_, ?_⟩
            · rw [sched_run, sched_step, if_pos hb, h.1, delta_concat]
            · rw [sched_run, sched_step, if_pos hb, h.2.1, delta_concat]
            · intro hd
              have hd' : SchedEvent.done ∈ rest := by
                cases hd with
                | tail _ hmem => exact hmem
              rw [sched_run, sched_step, if_pos hb]
              exact (ih st).2.2 hd'
          · have h := ih { st with emitted := st.emitted ++ [st.buffer], buffer := "" }
            refine ⟨?_, ?_, ?_⟩
            · rw [sched_run, sched_step, if_neg hb, h.1, delta_concat]
            · rw [sched_run, sched_step, if_neg hb, h.2.1]
              simp [delta_concat, concat_all_append, concat_all, String.append_assoc]
            · intro hd
              have hd' : SchedEvent.done ∈ rest := by
                cases hd with
                | tail _ hmem => exact hmem
              rw [sched_run, sched_step, if_neg hb]
              exact (ih _).2.2 hd'
      | done =>
          by_cases hb : st.buffer = ""
          · refine ⟨?_, ?_, ?_⟩
            · rw [sched_run, sched_step, if_pos hb, delta_concat]
              simp
            · rw [sched_run, sched_step, if_pos hb, delta_concat]
              simp
            · intro _
              rw [sched_run, sched_step, if_pos hb]
              exact hb
          · refine ⟨?_, ?_, ?_⟩
            · rw [sched_run, sched_step, if_neg hb, delta_concat]
              simp
            · rw [sched_run, sched_step, if_neg hb, delta_concat]
              simp [concat_all_append, concat_all]
            · intro _
              rw [sched_run, sched_step, if_neg hb]

/-- Runs that stop at a single trailing `done` factor through the state
reached just before it. -/
theorem sched_run_snoc_done (pre : List SchedEvent) (st : SchedState)
    (h : SchedEvent.done ∉ pre) :
    sched_run st (pre ++ [SchedEvent.done]) = sched_step (sched_run st pre) SchedEvent.done := by
  induction pre generalizing st with
  | nil => rfl
  | cons e rest ih =>
      cases e with
      | delta s =>
          rw [List.cons_append, sched_run, sched_run]
          exact ih _ (fun hm => h (List.mem_cons_of_mem _ hm))
      | tick =>
          rw [List.cons_append, sched_run, sched_run]
          exact ih _ (fun hm => h (List.mem_cons_of_mem _ hm))
      | done => exact absurd (List.mem_cons_self _ _) h

/-- C9: at every point of a scheduler run, the chunks emitted so far followed
by the pending buffer equal the full-text accumulator, which is the
concatenation of the deltas accepted so far in arrival order; a run that
reaches completion (`done`) ends with an empty buffer and has emitted exactly
the concatenation of all deltas — nothing lost, duplicated or reordered —
and when completion finds a non-empty remainder, the completion flush is
the final emitted chunk. -/
theorem c9_flush_scheduler (evs : List SchedEvent) :
    (concat_all (sched_run sched_init evs).emitted ++ (sched_run sched_init evs).buffer
        = (sched_run sched_init evs).full_text
      ∧ (sched_run sched_init evs).full_text = delta_concat evs)
    ∧ (SchedEvent.done ∈ evs →
        (sched_run sched_init evs).buffer = ""
        ∧ concat_all (sched_run sched_init evs).emitted = delta_concat evs)
    ∧ (∀ pre : List SchedEvent, evs = pre ++ [SchedEvent.done] → SchedEvent.done ∉ pre →
        (sched_run sched_init pre).buffer ≠ "" →
        (sched_run sched_init evs).emitted
          = (sched_run sched_init pre).emitted ++ [(sched_run sched_init pre).buffer]) := by
  have h := sched_run_spec evs sched_init
  have hfull : (sched_run sched_init evs).full_text = delta_concat evs := by
    rw [h.1, sched_init]
    exact String.empty_append _
  have hinv : concat_all (sched_run sched_init evs).emitted ++ (sched_run sched_init evs).buffer
      = (sched_run sched_init evs).full_text := by
    rw [h.2.1, hfull, sched_init]
    simp [concat_all]
  refine ⟨⟨hinv, hfull⟩, ?_, ?_⟩
  · intro hd
    have hb := h.2.2 hd
    refine ⟨hb, ?_⟩
    have := hinv
    rw [hb, String.append_empty] at this
    rw [this, hfull]
  · intro pre hpre hnd hb
    rw [hpre, sched_run_snoc_done pre sched_init hnd, sched_step, if_neg hb]

/-- Witness for C9 at the spec's coalescing example: deltas `"He"`, `"llo "`,
a timer tick, deltas `"Wor"`, `"ld"`, then completion emit exactly the two
chunks `"Hello "` and `"World"`, whose concatenation is the concatenation of
all deltas, the completion flush `"World"` being the last chunk. -/
theorem c9_flush_scheduler_witness :
    (sched_run sched_init
        [SchedEvent.delta "He", SchedEvent.delta "llo ", SchedEvent.tick,
         SchedEvent.delta "Wor", SchedEvent.delta "ld", SchedEvent.done]).emitted
      = ["Hello ", "World"]
    ∧ concat_all
        (sched_run sched_init
          [SchedEvent.delta "He", SchedEvent.delta "llo ", SchedEvent.tick,
           SchedEvent.delta "Wor", SchedEvent.delta "ld", SchedEvent.done]).emitted
      = delta_concat
          [SchedEvent.delta "He", SchedEvent.delta "llo ", SchedEvent.tick,
           SchedEvent.delta "Wor", SchedEvent.delta "ld", SchedEvent.done] :=
  ⟨by decide,
   ((c9_flush_scheduler
      [SchedEvent.delta "He", SchedEvent.delta "llo ", SchedEvent.tick,
       SchedEvent.delta "Wor", SchedEvent.delta "ld", SchedEvent.done]).2.1
      (by decide)).2⟩

/-! Generation Task: `call_llm_for_streaming`. The SSE events delivered by
the backend, the terminal result of `chat_completions_streaming`, and the
three cooperative reads of the abort flag (before awaiting the processing
task, inside the error branch, and after the error check) are explicit
inputs; the processing task's full text is the concatenation of the `Text`
events before the first `Done`. The reads happen in program order on a
sticky flag, so a theorem about a run assumes their monotonicity. -/

/-- `SseEvent` from the client module: a text delta or the end of stream. -/
inductive SseEvent where
  | text (s : String)
  | done
deriving Repr, DecidableEq

/-- Full text assembled by the processing task (`process_sse_events` keeps
appending every `Text` payload to `full_text` until `Done` or channel
close). -/
def collect_full_text : List SseEvent → String
  | [] => ""
  | SseEvent.done :: _ => ""
  | SseEvent.text s :: rest => s ++ collect_full_text rest

/-- Terminal result of `call_llm_for_streaming` (`Result<String>`). -/
inductive LlmResult where
  | ok (text : String)
  | err (e : String)
deriving Repr, DecidableEq

/-- `call_llm_for_streaming`: `events` are the SSE events the processing
task consumes, `streaming_result` the error (if any) of the underlying
streaming call, and `aborted1`–`aborted3` the values read from the abort
flag at the function's three `abort_signal.aborted()` checks in program
order. -/
def call_llm_for_streaming (events : List SseEvent) (streaming_result : Option String)
    (aborted1 aborted2 aborted3 : Bool) : LlmResult :=
  if aborted1 then LlmResult.ok "[Aborted by client]"
  else
    let full_text := collect_full_text events
    match streaming_result with
    | some e =>
        if aborted2 then LlmResult.ok "[Aborted by client]" else LlmResult.err e
    | none =>
        if aborted3 then LlmResult.ok "[Aborted by client]" else LlmResult.ok full_text

/-- C3 counterexample: a run that received the delta `"He"` and was then
cancelled terminates with the fixed marker `Ok "[Aborted by client]"`, not
with the assembled text up to the cancellation point (`"He"`): the partial
text is discarded, so the claim's description of the cancelled terminal
result is false on this input. -/
theorem c3_counterexample :
    call_llm_for_streaming [SseEvent.text "He"] none true true true
      = LlmResult.ok "[Aborted by client]"
    ∧ collect_full_text [SseEvent.text "He"] = "He"
    ∧ ("[Aborted by client]" : String) ≠ "He" :=
  ⟨rfl, rfl, by decide⟩

/-- C3 amended: for every run with monotone abort readings, the terminal
result is the full assembled text when no cancellation is observed and the
stream succeeds, the propagated error when no cancellation is observed and
the stream fails, and the fixed marker string `"[Aborted by client]"` (the
partial text being discarded) whenever any of the three checks observes
cancellation. -/
theorem c3_generation_task_result (events : List SseEvent) (streaming_result : Option String)
    (aborted1 aborted2 aborted3 : Bool)
    (h12 : aborted1 = true → aborted2 = true) (h23 : aborted2 = true → aborted3 = true) :
    (aborted3 = false → streaming_result = none →
      call_llm_for_streaming events streaming_result aborted1 aborted2 aborted3
        = LlmResult.ok (collect_full_text events))
    ∧ (aborted2 = false → ∀ e, streaming_result = some e →
        call_llm_for_streaming events streaming_result aborted1 aborted2 aborted3
          = LlmResult.err e)
    ∧ (aborted1 = true ∨ (streaming_result.isSome ∧ aborted2 = true)
        ∨ (streaming_result = none ∧ aborted3 = true) →
        call_llm_for_streaming events streaming_result aborted1 aborted2 aborted3
          = LlmResult.ok "[Aborted by client]") := by
  refine ⟨?_, ?_, ?_⟩
  · intro h3 hs
    have h2 : aborted2 = false := by
      cases hb : aborted2 with
      | false => rfl
      | true => rw [h23 hb] at h3; cases h3
    have h1 : aborted1 = false := by
      cases hb : aborted1 with
      | false => rfl
      | true => rw [h12 hb] at h2; cases h2
    simp [call_llm_for_streaming, h1, h3, hs]
  · intro h2 e hs
    have h1 : aborted1 = false := by
      cases hb : aborted1 with
      | false => rfl
      | true => rw [h12 hb] at h2; cases h2
    simp [call_llm_for_streaming, h1, h2, hs]
  · intro habort
    rcases habort with h1 | ⟨hs, h2⟩ | ⟨hs, h3⟩
    · simp [call_llm_for_streaming, h1]
    · rcases Option.isSome_iff_exists.mp hs with ⟨e, he⟩
      cases hb : aborted1 with
      | true => simp [call_llm_for_streaming, hb]
      | false => simp [call_llm_for_streaming, hb, he, h2]
    · cases hb : aborted1 with
      | true => simp [call_llm_for_streaming, hb]
      | false => simp [call_llm_for_streaming, hb, hs, h3]

/-- Witness for C3 at concrete runs: a successful uncancelled run assembles
`"Hello"`, a failing uncancelled run propagates its error, and a cancelled
run yields the marker string. -/
theorem c3_generation_task_result_witness :
    call_llm_for_streaming [SseEvent.text "Hel", SseEvent.text "lo", SseEvent.done]
        none false false false = LlmResult.ok "Hello"
    ∧ call_llm_for_streaming [SseEvent.text "Hel"] (some "boom") false false false
        = LlmResult.err "boom"
    ∧ call_llm_for_streaming [SseEvent.text "Hel"] none true true true
        = LlmResult.ok "[Aborted by client]" :=
  ⟨by
      have h := (c3_generation_task_result
        [SseEvent.text "Hel", SseEvent.text "lo", SseEvent.done] none false false false
        (by intro h; cases h) (by intro h; cases h)).1 rfl rfl
      simpa using h,
   (c3_generation_task_result [SseEvent.text "Hel"] (some "boom") false false false
      (by intro h; cases h) (by intro h; cases h)).2.1 rfl "boom" rfl,
   (c3_generation_task_result [SseEvent.text "Hel"] none true true true
      (fun _ => rfl) (fun _ => rfl)).2.2 (Or.inl rfl)⟩

/-! Response Emitter and turn persistence: the `chat` handler's
`EventStream!` block and the task it spawns. A turn's execution (`ChatRun`)
records the disk at turn start, the request data, the chunks received from
the scheduler together with the global time of the post-yield abort check
each one triggers, the generation result, the times of the task's and the
emitter's final abort checks, and the time (if any) at which cancellation
was signalled. -/

/-- Outward protocol event of the stream: a named trigger (`"sse-start"`,
`"sse-end"`) or a message chunk. -/
inductive ChatEvent where
  | trigger (data : String)
  | message (data : String)
deriving Repr, DecidableEq

/-- Value a cooperative check performed at time `t` reads from the abort
flag when cancellation was signalled at `signal_time` (never, if `none`);
being time-based makes the flag sticky. -/
def aborted_at (signal_time : Option Nat) (t : Nat) : Bool :=
  match signal_time with
  | none => false
  | some s => decide (s ≤ t)

/-- Escape of one character, per the handler's `html_escape` closure. The
closure chains five single-character `str::replace` calls (`&`, `<`, `>`,
`"`, then the apostrophe); since no replacement string contains a character
replaced later in the chain, the chain equals this character-wise map. -/
def escape_char (c : Char) : String :=
  if c = Char.ofNat 38 then "&amp;"
  else if c = Char.ofNat 60 then "&lt;"
  else if c = Char.ofNat 62 then "&gt;"
  else if c = Char.ofNat 34 then "&quot;"
  else if c = Char.ofNat 39 then "&#x27;"
  else String.mk [c]

/-- The handler's `html_escape` closure. -/
def html_escape (s : String) : String :=
  concat_all (s.data.map escape_char)

/-- The spawned `llm_task`: on generation success, unless the abort flag is
set at its check, it re-loads the session's history from disk (falling back
to a fresh one on a load error), appends the response as an Assistant
message and saves; on generation failure it leaves the disk untouched and
propagates the error unless aborted. Returns the resulting disk and the
task's `Result`. -/
def llm_task (fs : FileSystem) (session_id : String) (result : LlmResult)
    (aborted : Bool) (now : Int) : FileSystem × Except String Unit :=
  match result with
  | LlmResult.ok response_text =>
      if aborted then (fs, Except.ok ())
      else
        let updated_history :=
          match load_from_file session_id fs now with
          | Except.ok h => h
          | Except.error _ => ConversationHistory.new session_id now
        let updated_history := updated_history.add_message "assistant" response_text now
        (save_to_file updated_history fs, Except.ok ())
  | LlmResult.err e =>
      if aborted then (fs, Except.ok ()) else (fs, Except.error e)

/-- The handler's chunk-forwarding loop: each non-empty chunk is yielded as
an escaped `<span>` message and is followed by an abort check that breaks
the loop when it reads true; empty chunks are skipped without a check. -/
def emit_chunks (signal_time : Option Nat) : List (String × Nat) → List ChatEvent
  | [] => []
  | (chunk, t) :: rest =>
      if chunk = "" then emit_chunks signal_time rest
      else
        ChatEvent.message ("<span>" ++ html_escape chunk ++ "</span>")
          :: (if aborted_at signal_time t then [] else emit_chunks signal_time rest)

/-- One execution of the `chat` handler's streaming turn. -/
structure ChatRun where
  fs : FileSystem
  session_id : String
  user_message : String
  turn_start : Int
  chunks : List (String × Nat)
  llm_result : LlmResult
  llm_check_time : Nat
  final_check_time : Nat
  signal_time : Option Nat
  save_time : Int

/-- Prompt rendered by the handler before streaming: history is loaded
(fresh on error), the turn's User message is appended in memory — the
handler performs no save at this point — and the result is rendered. -/
def chat_prompt (r : ChatRun) : String :=
  let history :=
    match load_from_file r.session_id r.fs r.turn_start with
    | Except.ok h => h
    | Except.error _ => ConversationHistory.new r.session_id r.turn_start
  let history := history.add_message "user" r.user_message r.turn_start
  to_conversation_text history

/-- The streamed turn: the start trigger, the chunk loop, then — depending
on the spawned task's result and a final abort check — the end trigger,
or one error message followed by the end trigger, or nothing. Returns the
emitted events and the disk after the turn. Note that the spawned task is
given `r.fs`, the disk from turn start: the handler never persisted the
User message it appended in memory. -/
def chat_turn (r : ChatRun) : List ChatEvent × FileSystem :=
  let task := llm_task r.fs r.session_id r.llm_result
    (aborted_at r.signal_time r.llm_check_time) r.save_time
  let chunk_events := emit_chunks r.signal_time r.chunks
  let tail :=
    match task.2 with
    | Except.ok _ =>
        if aborted_at r.signal_time r.final_check_time then []
        else [ChatEvent.trigger "sse-end"]
    | Except.error e =>
        if aborted_at r.signal_time r.final_check_time then []
        else
          [ChatEvent.message ("<span>Error: " ++ html_escape e ++ "</span>"),
           ChatEvent.trigger "sse-end"]
  (ChatEvent.trigger "sse-start" :: chunk_events ++ tail, task.1)

theorem aborted_at_mono (sig : Option Nat) (t1 t2 : Nat) (h : t1 ≤ t2)
    (ha : aborted_at sig t1 = true) : aborted_at sig t2 = true := by
  cases sig with
  | none => simp [aborted_at] at ha
  | some s =>
      simp only [aborted_at, decide_eq_true_eq] at ha ⊢
      omega

theorem emit_chunks_halt (sig : Option Nat) (c : String) (t : Nat)
    (hc : c ≠ "") (ht : aborted_at sig t = true) :
    ∀ xs ys : List (String × Nat),
      emit_chunks sig (xs ++ (c, t) :: ys) = emit_chunks sig (xs ++ [(c, t)]) := by
  intro xs
  induction xs with
  | nil =>
      intro ys
      simp [emit_chunks, hc, ht]
  | cons x rest ih =>
      intro ys
      rw [List.cons_append, List.cons_append]
      by_cases hxc : x.1 = ""
      · rw [emit_chunks, emit_chunks, if_pos hxc, if_pos hxc, ih]
      · cases hxt : aborted_at sig x.2 with
        | true => rw [emit_chunks, emit_chunks, if_neg hxc, if_neg hxc, hxt]; simp
        | false => rw [emit_chunks, emit_chunks, if_neg hxc, if_neg hxc, hxt]; simp [ih]

theorem emit_chunks_messages (sig : Option Nat) :
    ∀ l : List (String × Nat), ∀ e ∈ emit_chunks sig l, ∃ d, e = ChatEvent.message d := by
  intro l
  induction l with
  | nil => intro e he; simp [emit_chunks] at he
  | cons x rest ih =>
      intro e he
      rw [emit_chunks] at he
      by_cases hxc : x.1 = ""
      · rw [if_pos hxc] at he
        exact ih e he
      · rw [if_neg hxc] at he
        rcases List.mem_cons.mp he with hhead | htail
        · exact ⟨_, hhead⟩
        · cases hxt : aborted_at sig x.2 with
          | true => rw [hxt] at htail; simp at htail
          | false => rw [hxt] at htail; exact ih e htail

/-- C7: in a turn whose cancellation is signalled at time `s` while the
generation task is still running (before its abort check, which precedes
the emitter's final check), (1) the chunk loop emits nothing past the first
post-yield check that observes the signal, (2) the end marker is never
emitted, and (3) the disk is left untouched — no Assistant message is
persisted for the turn. -/
theorem c7_cancellation_halts (r : ChatRun) (s : Nat)
    (hsig : r.signal_time = some s)
    (horder : r.llm_check_time ≤ r.final_check_time)
    (hmid : s ≤ r.llm_check_time) :
    (∀ (xs : List (String × Nat)) (c : String) (t : Nat) (ys : List (String × Nat)),
      r.chunks = xs ++ (c, t) :: ys → c ≠ "" → s ≤ t →
      emit_chunks r.signal_time r.chunks = emit_chunks r.signal_time (xs ++ [(c, t)]))
    ∧ ChatEvent.trigger "sse-end" ∉ (chat_turn r).1
    ∧ (chat_turn r).2 = r.fs := by
  have habllm : aborted_at r.signal_time r.llm_check_time = true := by
    rw [hsig]
    simp [aborted_at, hmid]
  have habfin : aborted_at r.signal_time r.final_check_time = true :=
    aborted_at_mono _ _ _ horder habllm
  refine ⟨?_, ?_, ?_⟩
  · intro xs c t ys hchunks hc hts
    rw [hchunks]
    apply emit_chunks_halt r.signal_time c t hc
    rw [hsig]
    simp [aborted_at, hts]
  · intro hmem
    have hevents : (chat_turn r).1
        = ChatEvent.trigger "sse-start" :: emit_chunks r.signal_time r.chunks := by
      cases hres : r.llm_result with
      | ok text => simp [chat_turn, llm_task, hres, habllm, habfin]
      | err e => simp [chat_turn, llm_task, hres, habllm, habfin]
    rw [hevents] at hmem
    rcases List.mem_cons.mp hmem with hhead | htail
    · exact absurd hhead (by decide)
    · rcases emit_chunks_messages r.signal_time r.chunks _ htail with ⟨d, hd⟩
      exact ChatEvent.noConfusion hd
  · cases hres : r.llm_result with
    | ok text => simp [chat_turn, llm_task, hres, habllm]
    | err e => simp [chat_turn, llm_task, hres, habllm]

/-- Cancelled run used to witness C7: the signal fires at time 3, between
the first chunk's check (time 2) and the second chunk's check (time 5), and
before the task's check (time 6) and the final check (time 8). -/
def c7_run : ChatRun :=
  { fs := fun _ => none, session_id := "s", user_message := "Hi", turn_start := 0,
    chunks := [("Hel", 2), ("lo", 5), ("x", 9)], llm_result := LlmResult.ok "Hello",
    llm_check_time := 6, final_check_time := 8, signal_time := some 3, save_time := 20 }

/-- Witness for C7 at the concrete cancelled run: the third chunk is cut
off after the second chunk's check observes the signal, no end marker is
emitted, and the disk is unchanged. -/
theorem c7_cancellation_halts_witness :
    emit_chunks c7_run.signal_time c7_run.chunks
      = emit_chunks c7_run.signal_time [("Hel", 2), ("lo", 5)]
    ∧ ChatEvent.trigger "sse-end" ∉ (chat_turn c7_run).1
    ∧ (chat_turn c7_run).2 = c7_run.fs :=
  ⟨(c7_cancellation_halts c7_run 3 rfl (by decide) (by decide)).1
      [("Hel", 2)] "lo" 5 [("x", 9)] rfl (by decide) (by decide),
   (c7_cancellation_halts c7_run 3 rfl (by decide) (by decide)).2.1,
   (c7_cancellation_halts c7_run 3 rfl (by decide) (by decide)).2.2⟩

/-- C8: for a turn whose generation fails with error `e`, the disk is never
touched; if no cancellation is observed at the final check (hence none at
the earlier task check), the stream is exactly the start trigger, the loop's
chunks, then one escaped error message followed by a normal end marker —
the error surfaces inside the event stream, never as a protocol failure;
if cancellation is observed at the final check, the error is swallowed:
neither the error message nor the end marker is emitted. -/
theorem c8_generator_error_surfacing (r : ChatRun) (e : String)
    (herr : r.llm_result = LlmResult.err e)
    (horder : r.llm_check_time ≤ r.final_check_time) :
    (chat_turn r).2 = r.fs
    ∧ (aborted_at r.signal_time r.final_check_time = false →
        (chat_turn r).1
          = ChatEvent.trigger "sse-start" :: emit_chunks r.signal_time r.chunks
              ++ [ChatEvent.message ("<span>Error: " ++ html_escape e ++ "</span>"),
                  ChatEvent.trigger "sse-end"])
    ∧ (aborted_at r.signal_time r.final_check_time = true →
        (chat_turn r).1
          = ChatEvent.trigger "sse-start" :: emit_chunks r.signal_time r.chunks) := by
  refine ⟨?_, ?_, ?_⟩
  · cases hb : aborted_at r.signal_time r.llm_check_time with
    | true => simp [chat_turn, llm_task, herr, hb]
    | false => simp [chat_turn, llm_task, herr, hb]
  · intro hfin
    have habllm : aborted_at r.signal_time r.llm_check_time = false := by
      cases hb : aborted_at r.signal_time r.llm_check_time with
      | false => rfl
      | true => rw [aborted_at_mono _ _ _ horder hb] at hfin; cases hfin
    simp [chat_turn, llm_task, herr, habllm, hfin]
  · intro hfin
    cases hb : aborted_at r.signal_time r.llm_check_time with
    | true => simp [chat_turn, llm_task, herr, hb, hfin]
    | false => simp [chat_turn, llm_task, herr, hb, hfin]

/-- Failing uncancelled run used to witness C8. -/
def c8_run : ChatRun :=
  { fs := fun _ => none, session_id := "s", user_message := "Hi", turn_start := 0,
    chunks := [("Par", 2), ("tial", 4)], llm_result := LlmResult.err "boom",
    llm_check_time := 6, final_check_time := 8, signal_time := none, save_time := 20 }

/-- Witness for C8 at the concrete failing run: the disk is unchanged and
the stream ends with one error message followed by the end marker. -/
theorem c8_generator_error_surfacing_witness :
    (chat_turn c8_run).2 = c8_run.fs
    ∧ (chat_turn c8_run).1
        = ChatEvent.trigger "sse-start" :: emit_chunks c8_run.signal_time c8_run.chunks
            ++ [ChatEvent.message ("<span>Error: " ++ html_escape "boom" ++ "</span>"),
                ChatEvent.trigger "sse-end"] :=
  ⟨(c8_generator_error_surfacing c8_run "boom" rfl (by decide)).1,
   (c8_generator_error_surfacing c8_run "boom" rfl (by decide)).2.1 rfl⟩

/-- Completed turn on an empty disk used to exhibit the C1 divergence:
user message `"Hi"`, generation completes with `"Hello"`, no cancellation. -/
def c1_run : ChatRun :=
  { fs := fun _ => none, session_id := "s", user_message := "Hi", turn_start := 10,
    chunks := [("Hello", 5)], llm_result := LlmResult.ok "Hello",
    llm_check_time := 7, final_check_time := 8, signal_time := none, save_time := 20 }

/-- The same turn aborted before completion (signal at time 0). -/
def c1_aborted_run : ChatRun :=
  { fs := fun _ => none, session_id := "s", user_message := "Hi", turn_start := 10,
    chunks := [("Hello", 5)], llm_result := LlmResult.ok "Hello",
    llm_check_time := 7, final_check_time := 8, signal_time := some 0, save_time := 20 }

/-- C1 fails on the code: the handler appends the turn's User message only
to the in-memory history it renders the prompt from (first conjunct) and
never saves it; the spawned task then re-loads the session from the disk of
turn start and saves that plus the Assistant message, so the record
persisted by a completed turn holds exactly the Assistant message and no
User message (second conjunct), and an aborted turn persists nothing at all
— in particular not the turn's User message (third conjunct). -/
theorem c1_user_message_never_persisted :
    chat_prompt c1_run = "Hi"
    ∧ (chat_turn c1_run).2 "s"
        = some (DiskFile.valid
            { session_id := "s",
              messages := [{ role := "assistant", content := "Hello", timestamp := 20 }],
              created_at := 20, updated_at := 20 })
    ∧ (chat_turn c1_aborted_run).2 "s" = none :=
  ⟨rfl, rfl, rfl⟩

end Aichat
